import Mathlib

/-!
Verification of the AI-response pipeline of the FitTrack backend.

Definitions below are shallow embeddings of the handlers in `src/server.js`
(the canonical first revision, and where claims cite them, the second
revision and the older revisions kept as `src/unnamed/part_000` /
`src/unnamed/part_001`).  External capabilities (the PDF text extractor,
`JSON.parse`, the OpenAI backend, bcrypt) are modelled as function
parameters; everything the routes themselves compute is embedded.
-/

set_option maxRecDepth 2000

namespace FitTrack

/-- Left and right curly-brace characters, used by the JSON extraction
regex `/\x7b[\s\S]*\x7d/` in the handlers. -/
def lbrace : Char := Char.ofNat 123

/-- Right curly brace. -/
def rbrace : Char := Char.ofNat 125

/-- A JSON value, the result shape of the external `JSON.parse`. -/
inductive Json where
  | null : Json
  | bool : Bool → Json
  | num : Int → Json
  | str : String → Json
  | arr : List Json → Json
  | obj : List (String × Json) → Json

/-- Property lookup `j[k]` on a parsed JSON value: `none` models the JS
`undefined` produced when `j` is not an object or lacks the key. -/
def jGet (j : Json) (k : String) : Option Json :=
  match j with
  | .obj fields => fields.lookup k
  | _ => none

/-- JavaScript truthiness of a JSON value, as used by the `!x` checks in
the day-validation loop of `/ai-diet-workout` (server.js:443-450). -/
def jsTruthy : Json → Bool
  | .null => false
  | .bool b => b
  | .num n => decide (n ≠ 0)
  | .str s => decide (s ≠ "")
  | .arr _ => true
  | .obj _ => true

/-- Truthiness of an optional-chaining result: JS `undefined` is falsy. -/
def jsTruthyOpt : Option Json → Bool
  | none => false
  | some j => jsTruthy j

/-- The tolerant JSON extraction `text.match(/\x7b[\s\S]*\x7d/)` used by
both AI routes of server.js (lines 227, 428, 738): the substring from the
first left brace through the last right brace, or `none` when the regex
does not match (no left brace, or no right brace after it). -/
def extractJson (l : List Char) : Option (List Char) :=
  let t := l.dropWhile (fun c => c != lbrace)
  let r := t.reverse.dropWhile (fun c => c != rbrace)
  match t, r with
  | _ :: _, _ :: _ => some r.reverse
  | _, _ => none

/-- Whitespace trimming, as in the JS `String.prototype.trim`. -/
def trimChars (l : List Char) : List Char :=
  ((l.dropWhile Char.isWhitespace).reverse.dropWhile Char.isWhitespace).reverse

/-- Helper for `collapseWs`: `inRun` records whether the previous kept
character belonged to a whitespace run already replaced by a space. -/
def collapseWsAux (inRun : Bool) : List Char → List Char
  | [] => []
  | c :: cs =>
    if c.isWhitespace then
      if inRun then collapseWsAux true cs
      else ' ' :: collapseWsAux true cs
    else c :: collapseWsAux false cs

/-- Collapse every run of whitespace to a single space, as the cleaning
step `.replace(/\s+/g, " ")` of the older evaluate-pdf revisions
(part_001:332, part_000:625). -/
def collapseWs (l : List Char) : List Char := collapseWsAux false l

/-- Drop characters outside printable ASCII, the cleaning step
`.replace(/[^\x20-\x7E]/g, "")` of part_001:333. -/
def printableOnly (l : List Char) : List Char :=
  l.filter (fun c => 32 ≤ c.toNat && c.toNat ≤ 126)

/-- The full text cleaning of part_001:331-334 applied to the raw
pdf-parse output. -/
def cleanText (l : List Char) : List Char :=
  trimChars (printableOnly (collapseWs l))

/-- The report section embedded in the evaluation prompt by the canonical
server.js handler: `parsed.text.slice(0, 3500)` (server.js:208). -/
def evalReportSection (t : List Char) : List Char := t.take 3500

/-- The report section embedded by the second server.js revision:
`text.slice(0, 4000)` (server.js:716). -/
def evalReportSectionV2 (t : List Char) : List Char := t.take 4000

/-! ## Model Invoker

The backend call is modelled by the text it would eventually deliver and
the wall-clock delay (in milliseconds) it takes to deliver it. -/

/-- Result of one model invocation. -/
inductive InvokeResult where
  | text : List Char → InvokeResult
  | timeoutErr : InvokeResult

/-- The invocation of the second-revision `/ai-evaluate-pdf` handler
(server.js:719-728): `Promise.race` of the backend call against
`setTimeout(25000)`.  The backend wins when it settles strictly before
the 25-second timer; otherwise the race rejects with the timeout error. -/
def racedInvoke (backendDelayMs : Nat) (backendText : List Char) : InvokeResult :=
  if backendDelayMs < 25000 then .text backendText else .timeoutErr

/-- The invocations of the canonical server.js revision
(`openai.responses.create` at lines 211-216 and 406-411): a plain await
with no timer racing it, so the delivered text is returned no matter how
long the backend takes. -/
def plainInvoke (_backendDelayMs : Nat) (backendText : List Char) : InvokeResult :=
  .text backendText

/-! ## GeneratePlan: the canonical `/ai-diet-workout` route (server.js:247-467) -/

/-- Request body of `/ai-diet-workout`; `none` models an absent (JS
`null`/`undefined`) field. -/
structure DietReq where
  age : Option Int
  gender : Option String
  height : Option Int
  weight : Option Int
  bmi : Option Int
  preference : Option String

/-- The presence check of server.js:271-277:
`age == null || !gender || height == null || weight == null || bmi == null`
(note `!gender` is also true for the empty string). -/
def missingFields (r : DietReq) : Bool :=
  r.age.isNone || (match r.gender with | none => true | some g => g.isEmpty)
    || r.height.isNone || r.weight.isNone || r.bmi.isNone

/-- The process-wide cooldown state `dietCooldownMap` (server.js:245),
keyed by caller identity. -/
def CooldownMap : Type := List (String × Nat)

/-- Map read `dietCooldownMap.get(userKey) || 0` (server.js:262). -/
def cdGet (m : CooldownMap) (k : String) : Nat :=
  match List.lookup k m with
  | some v => v
  | none => 0

/-- Map write `dietCooldownMap.set(userKey, now)` (server.js:452); a new
front entry shadows any older entry for the same key. -/
def cdSet (m : CooldownMap) (k : String) (v : Nat) : CooldownMap :=
  (k, v) :: m

/-- The seven canonical weekday keys (server.js:438-441). -/
def daysOfWeek : List String :=
  ["Sunday", "Monday", "Tuesday", "Wednesday", "Thursday", "Friday", "Saturday"]

/-- The day-validation loop of server.js:443-450: for every weekday,
`data.dietPlan?.[day]` and `data.workoutPlan?.[day]` must be truthy. -/
def validateDays (data : Json) : Bool :=
  daysOfWeek.all fun d =>
    jsTruthyOpt ((jGet data "dietPlan").bind (fun p => jGet p d)) &&
    jsTruthyOpt ((jGet data "workoutPlan").bind (fun p => jGet p d))

/-- Outcome of one `/ai-diet-workout` request. -/
inductive DietOutcome where
  /-- 503 "AI service unavailable" (server.js:249-254). -/
  | serviceUnavailable
  /-- 429 "Please wait 1 minute before generating again" (server.js:262-267). -/
  | rateLimited
  /-- 400 "Missing required user details" (server.js:271-282). -/
  | missingDetails
  /-- 500 "AI failed to generate plan": the catch block (server.js:460-466),
  reached when the backend call throws or the AI text is empty. -/
  | aiError
  /-- "AI returned invalid format. Please retry." (server.js:430-435). -/
  | invalidFormat
  /-- "AI response incomplete. Please retry." (server.js:445-449). -/
  | incompletePlan
  /-- 200 `success:true` with the dietPlan and workoutPlan fields of the
  parsed data (server.js:454-458). -/
  | success (dietPlan workoutPlan : Option Json)

/-- Whether a diet-workout outcome is the success envelope. -/
def isPlanSuccess : DietOutcome → Bool
  | .success _ _ => true
  | _ => false

/-- Continuation of the route after JSON parsing succeeded
(server.js:437-458): validate the seven days, record the cooldown
timestamp, respond with the parsed plans verbatim. -/
def dietAfterParse (m : CooldownMap) (key : String) (now : Nat) (data : Json) :
    DietOutcome × CooldownMap × Nat :=
  if validateDays data then
    (.success (jGet data "dietPlan") (jGet data "workoutPlan"), cdSet m key now, 1)
  else
    (.incompletePlan, m, 1)

/-- Continuation of the route after the model produced its text
(server.js:423-435): throw on empty text, then tolerant-extract and parse. -/
def dietAfterModel (m : CooldownMap) (key : String) (now : Nat)
    (text : List Char) (parse : List Char → Option Json) :
    DietOutcome × CooldownMap × Nat :=
  if (trimChars text).isEmpty then (.aiError, m, 1)
  else
    match (extractJson text).bind parse with
    | none => (.invalidFormat, m, 1)
    | some data => dietAfterParse m key now data

/-- The `/ai-diet-workout` handler of the canonical server.js revision.
`cfg` is whether an OpenAI credential is configured, `model` the backend
call (an exception or the assembled output text), `parse` the external
`JSON.parse`.  Returns the outcome, the cooldown map after the request,
and the number of model invocations performed. -/
def dietHandler (cfg : Bool) (m : CooldownMap) (key : String) (now : Nat)
    (req : DietReq) (model : Except Unit (List Char))
    (parse : List Char → Option Json) : DietOutcome × CooldownMap × Nat :=
  if cfg then
    if now - cdGet m key < 60000 then (.rateLimited, m, 0)
    else if missingFields req then (.missingDetails, m, 0)
    else
      match model with
      | .error _ => (.aiError, m, 1)
      | .ok text => dietAfterModel m key now text parse
  else (.serviceUnavailable, m, 0)

/-! ## EvaluateReport: the canonical `/ai-evaluate-pdf` route (server.js:167-238) -/

/-- Side observations of one evaluate request: whether the PDF text was
extracted (`pdfParse` ran) and how many model invocations happened. -/
structure EvalStats where
  extracted : Bool
  modelCalls : Nat

/-- Outcome of one canonical `/ai-evaluate-pdf` request. -/
inductive EvalOutcome where
  /-- "AI disabled" (server.js:169-171). -/
  | aiDisabled
  /-- "No report uploaded" (server.js:173-175). -/
  | noReport
  /-- "Report unreadable or scanned" (server.js:178-183). -/
  | unreadable
  /-- "Invalid userMeta JSON" (server.js:186-190). -/
  | badMeta
  /-- "AI failed": the catch block (server.js:234-237). -/
  | modelError
  /-- "AI parse failed" (server.js:226-231). -/
  | parseFailed
  /-- 200 `success:true` with the parsed evaluation (server.js:233). -/
  | success (evaluation : Json)

/-- Continuation of the route from the model call onward
(server.js:211-233): invoke the backend, tolerant-extract and parse the
answer, respond with the parsed value. -/
def evalCallModel (model : Except Unit (List Char))
    (parse : List Char → Option Json) : EvalOutcome × EvalStats :=
  match model with
  | .error _ => (.modelError, ⟨true, 1⟩)
  | .ok t =>
    match (extractJson t).bind parse with
    | none => (.parseFailed, ⟨true, 1⟩)
    | some data => (.success data, ⟨true, 1⟩)

/-- The `/ai-evaluate-pdf` handler of the canonical server.js revision.
`file` is the text the external `pdfParse` extracts from the uploaded PDF
(`none` when no file was uploaded), `metaRaw` the optional `userMeta`
form field, `model` the backend call as a function of the report section
embedded in the prompt, `parse` the external `JSON.parse`. -/
def evalHandler (cfg : Bool) (file : Option (List Char))
    (metaRaw : Option (List Char))
    (model : List Char → Except Unit (List Char))
    (parse : List Char → Option Json) : EvalOutcome × EvalStats :=
  if cfg then
    match file with
    | none => (.noReport, ⟨false, 0⟩)
    | some text =>
      if text.length < 150 then (.unreadable, ⟨true, 0⟩)
      else
        match metaRaw with
        | some mRaw =>
          match parse mRaw with
          | none => (.badMeta, ⟨true, 0⟩)
          | some _ => evalCallModel (model (evalReportSection text)) parse
        | none => evalCallModel (model (evalReportSection text)) parse
  else (.aiDisabled, ⟨false, 0⟩)

/-! ## EvaluateReport, part_001 revision (part_001:321-404) -/

/-- Outcome of one part_001 `/ai-evaluate-pdf` request. -/
inductive P1Outcome where
  /-- 400 "No PDF file uploaded" (part_001:323-325). -/
  | noReport
  /-- 500 "Failed to evaluate medical report": the catch block
  (part_001:400-403), also reached when `openai` is `null`. -/
  | error500
  /-- 200 `success:true` with the raw model text as the evaluation
  (part_001:396-399). -/
  | success (evaluation : Json)

/-- The canned substitute report text of part_001:340-369, used whenever
the cleaned extracted text is shorter than 50 characters. -/
def p1FallbackText : List Char := String.toList
  ("This medical document appears to be a scanned or image-based report " ++
   "where the textual content could not be extracted directly. However, " ++
   "such reports commonly include patient laboratory investigations, " ++
   "diagnostic findings, and clinical parameters. Assume the report may " ++
   "contain routine medical test values such as: Complete Blood Count " ++
   "(CBC), Hemoglobin levels, Blood sugar (fasting and postprandial), " ++
   "Thyroid profile (TSH, T3, T4), Liver function tests, Kidney function " ++
   "tests, Lipid profile, Vitamin levels (B12, D), Inflammatory markers, " ++
   "Blood pressure records. Based on standard medical reference ranges " ++
   "for adults aged 15 years and above, analyze the possible health " ++
   "implications. If any values are suspected to be abnormal, explain " ++
   "what they usually indicate, the level of severity, and common " ++
   "associated symptoms. Provide a clear, patient-friendly explanation " ++
   "of potential health risks. Include lifestyle guidance such as: Diet " ++
   "recommendations suitable for Indian food habits, Exercise and " ++
   "physical activity suggestions, Hydration and sleep advice, When " ++
   "medical consultation is strongly advised. Do not assume a confirmed " ++
   "diagnosis. Use cautious language. Focus on educational and " ++
   "preventive health guidance.")

/-- The `/ai-evaluate-pdf` handler of the part_001 revision.  It never
checks the credential before extracting (when `openai` is `null` the
property access throws inside the try, landing in the catch), never
gates on a 150-character minimum (below 50 cleaned characters it
substitutes `p1FallbackText` and still calls the model), embeds the
text with no truncation, and surfaces the raw model string as the
evaluation without any JSON validation. -/
def evalP1 (cfg : Bool) (file : Option (List Char))
    (model : List Char → Except Unit (List Char)) : P1Outcome × EvalStats :=
  match file with
  | none => (.noReport, ⟨false, 0⟩)
  | some raw =>
    let cleaned := cleanText raw
    let extractedText := if cleaned.length < 50 then p1FallbackText else cleaned
    if cfg then
      match model extractedText with
      | .error _ => (.error500, ⟨true, 1⟩)
      | .ok rawResp => (.success (Json.str (String.mk rawResp)), ⟨true, 1⟩)
    else (.error500, ⟨true, 0⟩)

/-! ## Login (server.js:145-162, second revision server.js:613-632) -/

/-- A stored user record; `password` holds the bcrypt hash written at
registration (server.js:124-135). -/
structure UserRec where
  mobile : String
  password : String
  name : String

/-- Outcome of one `/login` request. -/
inductive LoginResult where
  /-- 401 "Invalid credentials" (server.js:150,153). -/
  | invalidCred
  /-- "Login success" with the full user document and a token
  (server.js:157). -/
  | ok (user : UserRec) (token : String)

/-- The `/login` handler: find the user by mobile, compare the supplied
password against the stored hash with the external `bcrypt.compare`,
and on success respond with the full stored record. -/
def login (db : List UserRec) (compare : String → String → Bool)
    (token : String) (mobile password : String) : LoginResult :=
  match db.find? (fun u => u.mobile == mobile) with
  | none => .invalidCred
  | some u => if compare password u.password then .ok u token else .invalidCred

/-! ## Concrete fixtures used by witnesses and counterexamples -/

/-- A diet day whose breakfast names a denylisted ingredient. -/
def mealMilk : Json := .obj [("breakfast", .str "milk")]

/-- A minimal workout day. -/
def workoutStub : Json := .obj [("warmup", .str "stretch")]

/-- A diet mapping covering all seven weekdays. -/
def dp0 : Json := .obj (daysOfWeek.map fun d => (d, mealMilk))

/-- A workout mapping covering all seven weekdays. -/
def wp0 : Json := .obj (daysOfWeek.map fun d => (d, workoutStub))

/-- A complete parsed plan response. -/
def planData0 : Json := .obj [("dietPlan", dp0), ("workoutPlan", wp0)]

/-- A diet mapping with the Monday key absent. -/
def dpNoMonday : Json :=
  .obj ((daysOfWeek.filter (fun d => d != "Monday")).map fun d => (d, mealMilk))

/-- A parsed plan response whose diet mapping misses Monday. -/
def planMissingMonday : Json := .obj [("dietPlan", dpNoMonday), ("workoutPlan", wp0)]

/-- A tiny model answer containing a JSON object substring. -/
def planText0 : List Char := [lbrace, 'p', rbrace]

/-- A `JSON.parse` oracle returning the complete plan. -/
def planParse0 : List Char → Option Json := fun _ => some planData0

/-- A `JSON.parse` oracle returning the Monday-less plan. -/
def parseMissing : List Char → Option Json := fun _ => some planMissingMonday

/-- A well-formed plan request with vegan preference. -/
def veganReq : DietReq :=
  ⟨some 30, some "female", some 165, some 60, some 22, some "vegan"⟩

/-- A registered user whose password field holds a bcrypt hash. -/
def user0 : UserRec := ⟨"9876543210", "bcrypt-ten-rounds-hash", "asha"⟩

/-! ## Helper lemmas -/

theorem dropWhile_append_of_all {p : Char → Bool} {l₁ l₂ : List Char}
    (h : ∀ c ∈ l₁, p c = true) :
    (l₁ ++ l₂).dropWhile p = l₂.dropWhile p := by
  induction l₁ with
  | nil => simp
  | cons a l ih =>
    have ha : p a = true := h a (List.mem_cons_self a l)
    simp only [List.cons_append, List.dropWhile_cons, ha, if_true]
    exact ih fun c hc => h c (List.mem_cons_of_mem _ hc)

theorem extractJson_eq_some {l t r : List Char}
    (ht : l.dropWhile (fun c => c != lbrace) = t)
    (hr : t.reverse.dropWhile (fun c => c != rbrace) = r)
    {a : Char} {t1 : List Char} (hta : t = a :: t1)
    {b : Char} {r1 : List Char} (hrb : r = b :: r1) :
    extractJson l = some r.reverse := by
  subst hta hrb
  simp only [extractJson]
  rw [ht, hr]

/-- Inversion of a successful `/ai-diet-workout` run: success happens
only after extraction, parsing and seven-day validation, the returned
plans are the parsed fields verbatim, and exactly then the cooldown
timestamp is written. -/
theorem dietHandler_success_inv {cfg : Bool} {m : CooldownMap} {key : String}
    {now : Nat} {req : DietReq} {model : Except Unit (List Char)}
    {parse : List Char → Option Json} {d w : Option Json}
    (h : (dietHandler cfg m key now req model parse).1 = .success d w) :
    ∃ text data, model = .ok text ∧ (extractJson text).bind parse = some data ∧
      validateDays data = true ∧ d = jGet data "dietPlan" ∧
      w = jGet data "workoutPlan" ∧
      dietHandler cfg m key now req model parse =
        (.success d w, cdSet m key now, 1) := by
  cases cfg with
  | false => simp [dietHandler] at h
  | true =>
    cases model with
    | error e =>
      simp only [dietHandler, if_true] at h
      split at h
      · simp at h
      · split at h <;> simp at h
    | ok text =>
      simp only [dietHandler, if_true] at h
      split at h
      · simp at h
      · rename_i hcool
        split at h
        · simp at h
        · rename_i hmiss
          simp only [dietAfterModel] at h
          split at h
          · simp at h
          · rename_i htrim
            cases hbind : (extractJson text).bind parse with
            | none => rw [hbind] at h; simp at h
            | some data =>
              rw [hbind] at h
              simp only [dietAfterParse] at h
              split at h
              · rename_i hval
                injection h with h1 h2
                refine ⟨text, data, rfl, hbind, hval, h1.symm, h2.symm, ?_⟩
                simp [dietHandler, dietAfterModel, dietAfterParse, hcool,
                  hmiss, htrim, hbind, hval, h1, h2]
              · simp at h

/-- Every non-success `/ai-diet-workout` outcome leaves the cooldown map
untouched; a success records the request time for the caller key. -/
theorem dietHandler_map_spec (cfg : Bool) (m : CooldownMap) (key : String)
    (now : Nat) (req : DietReq) (model : Except Unit (List Char))
    (parse : List Char → Option Json) :
    ((dietHandler cfg m key now req model parse).2.1 = m ∧
      isPlanSuccess (dietHandler cfg m key now req model parse).1 = false) ∨
    ∃ d w, dietHandler cfg m key now req model parse =
      (.success d w, cdSet m key now, 1) := by
  unfold dietHandler dietAfterModel dietAfterParse
  repeat' split
  all_goals simp [isPlanSuccess]

/-- Inversion of a successful canonical `/ai-evaluate-pdf` run: success
happens only for a present PDF with at least 150 characters of extracted
text, and the evaluation is the parsed extraction of the model answer. -/
theorem evalHandler_success_inv {cfg : Bool} {file : Option (List Char)}
    {metaRaw : Option (List Char)} {model : List Char → Except Unit (List Char)}
    {parse : List Char → Option Json} {j : Json} {st : EvalStats}
    (h : evalHandler cfg file metaRaw model parse = (.success j, st)) :
    ∃ text raw, file = some text ∧ 150 ≤ text.length ∧
      model (evalReportSection text) = .ok raw ∧
      (extractJson raw).bind parse = some j ∧ st = ⟨true, 1⟩ := by
  cases cfg with
  | false => simp [evalHandler] at h
  | true =>
    cases file with
    | none => simp [evalHandler] at h
    | some text =>
      simp only [evalHandler, if_true] at h
      split at h
      · simp at h
      · rename_i hlen
        have hlen' : 150 ≤ text.length := Nat.le_of_not_lt hlen
        have hcall : evalCallModel (model (evalReportSection text)) parse
            = (.success j, st) := by
          cases metaRaw with
          | none => exact h
          | some mRaw =>
            have h' : (match parse mRaw with
                | none => ((EvalOutcome.badMeta, ⟨true, 0⟩) : EvalOutcome × EvalStats)
                | some _ => evalCallModel (model (evalReportSection text)) parse)
                = (.success j, st) := h
            cases hpm : parse mRaw with
            | none => rw [hpm] at h'; simp at h'
            | some v => rw [hpm] at h'; exact h'
        clear h
        simp only [evalCallModel] at hcall
        split at hcall
        · simp at hcall
        · rename_i raw heq
          split at hcall
          · simp at hcall
          · rename_i data hbind
            injection hcall with h1 h2
            injection h1 with h1
            exact ⟨text, raw, rfl, hlen', heq, by rw [hbind, h1], h2.symm⟩

/-! ## Claims -/

/-- Claim C1 is false on the code: a vegan-preference plan request whose
parsed model output names the denylisted ingredient "milk" in a diet
field is answered with that token intact — the `/ai-diet-workout` route
performs no post-parse substitution of any kind. -/
theorem c1_counterexample :
    dietHandler true [] "ip" 100000 veganReq (.ok planText0) planParse0
      = (.success (some dp0) (some wp0), [("ip", 100000)], 1) ∧
    veganReq.preference = some "vegan" ∧
    (jGet dp0 "Sunday").bind (fun day => jGet day "breakfast")
      = some (.str "milk") :=
  ⟨rfl, rfl, rfl⟩

/-- Claim C1 amended: the pipeline applies no denylist substitution —
for every vegan-preference request, a success envelope carries exactly
the dietPlan and workoutPlan fields of the parsed model output,
verbatim; the only vegan exclusion in the source is a prompt
instruction, so denylisted tokens returned by the model are surfaced. -/
theorem c1_amended {m : CooldownMap} {key : String} {now : Nat}
    {req : DietReq} {model : Except Unit (List Char)}
    {parse : List Char → Option Json} {d w : Option Json}
    (_hpref : req.preference = some "vegan")
    (h : (dietHandler true m key now req model parse).1 = .success d w) :
    ∃ text data, model = .ok text ∧ (extractJson text).bind parse = some data ∧
      d = jGet data "dietPlan" ∧ w = jGet data "workoutPlan" := by
  obtain ⟨text, data, hmo, hbind, _, hd, hw, _⟩ := dietHandler_success_inv h
  exact ⟨text, data, hmo, hbind, hd, hw⟩

/-- Claim C1 amended, witnessed on a concrete vegan request. -/
theorem c1_amended_witness :
    ∃ text data, (Except.ok planText0 : Except Unit (List Char)) = .ok text ∧
      (extractJson text).bind planParse0 = some data ∧
      (some dp0 : Option Json) = jGet data "dietPlan" ∧
      (some wp0 : Option Json) = jGet data "workoutPlan" :=
  @c1_amended [] "ip" 100000 veganReq (.ok planText0) planParse0
    (some dp0) (some wp0) rfl rfl

/-- Claim C2 is false on the code: the part_001 `/ai-evaluate-pdf`
revision answers success:true with the raw model string as the
evaluation, even when that string contains no JSON at all. -/
theorem c2_counterexample :
    evalP1 true (some (List.replicate 60 'a'))
        (fun _ => .ok (String.toList "hello"))
      = (.success (.str "hello"), ⟨true, 1⟩) ∧
    extractJson (String.toList "hello") = none :=
  ⟨rfl, by decide⟩

/-- Claim C2 amended: in the canonical server.js revision the invariant
holds — an evaluation is surfaced with success:true only after the
brace-extraction and `JSON.parse` of the model answer succeed, and a
plan only additionally after the seven-day validation; the part_000 and
part_001 evaluate revisions violate the invariant. -/
theorem c2_amended :
    (∀ (cfg : Bool) (file metaRaw : Option (List Char))
        (model : List Char → Except Unit (List Char))
        (parse : List Char → Option Json) (j : Json) (st : EvalStats),
      evalHandler cfg file metaRaw model parse = (.success j, st) →
      ∃ text raw, file = some text ∧ model (evalReportSection text) = .ok raw ∧
        (extractJson raw).bind parse = some j) ∧
    (∀ (cfg : Bool) (m : CooldownMap) (key : String) (now : Nat) (req : DietReq)
        (model : Except Unit (List Char)) (parse : List Char → Option Json)
        (d w : Option Json),
      (dietHandler cfg m key now req model parse).1 = .success d w →
      ∃ text data, model = .ok text ∧ (extractJson text).bind parse = some data ∧
        validateDays data = true ∧ d = jGet data "dietPlan" ∧
        w = jGet data "workoutPlan") := by
  constructor
  · intro cfg file metaRaw model parse j st h
    obtain ⟨text, raw, hf, _, hm, hb, _⟩ := evalHandler_success_inv h
    exact ⟨text, raw, hf, hm, hb⟩
  · intro cfg m key now req model parse d w h
    obtain ⟨text, data, hmo, hbind, hval, hd, hw, _⟩ := dietHandler_success_inv h
    exact ⟨text, data, hmo, hbind, hval, hd, hw⟩

/-- Claim C2 amended, witnessed on a concrete successful evaluation. -/
theorem c2_amended_witness :
    ∃ text raw, (some (List.replicate 150 'a') : Option (List Char)) = some text ∧
      (fun _ : List Char => (Except.ok planText0 : Except Unit (List Char)))
          (evalReportSection text) = .ok raw ∧
      (extractJson raw).bind planParse0 = some planData0 :=
  c2_amended.1 true (some (List.replicate 150 'a')) none
    (fun _ => .ok planText0) planParse0 planData0 ⟨true, 1⟩ rfl

/-- Claim C3: whenever the parsed model response misses (or holds a JS
falsy value at) any of the seven weekday keys in either the diet or the
workout mapping, `/ai-diet-workout` never answers with a success
envelope — no partial plan is returned. -/
theorem c3_missing_day_not_success {cfg : Bool} {m : CooldownMap} {key : String}
    {now : Nat} {req : DietReq} {model : Except Unit (List Char)}
    {parse : List Char → Option Json} {text : List Char} {data : Json}
    {day : String}
    (hm : model = Except.ok text)
    (hp : (extractJson text).bind parse = some data)
    (hd : day ∈ daysOfWeek)
    (hmiss :
      jsTruthyOpt ((jGet data "dietPlan").bind (fun p => jGet p day)) = false ∨
      jsTruthyOpt ((jGet data "workoutPlan").bind (fun p => jGet p day)) = false) :
    isPlanSuccess (dietHandler cfg m key now req model parse).1 = false := by
  cases hout : (dietHandler cfg m key now req model parse).1
  case success d w =>
    obtain ⟨text2, data2, hmo, hbind, hval, _, _, _⟩ := dietHandler_success_inv hout
    rw [hm] at hmo
    injection hmo with ht
    subst ht
    rw [hp] at hbind
    injection hbind with hdat
    subst hdat
    simp only [validateDays] at hval
    have hday := (List.all_eq_true.mp hval) day hd
    rcases hmiss with hh | hh <;> simp [hh] at hday
  all_goals rfl

/-- Claim C3, witnessed: a model response whose diet mapping misses
Monday is rejected. -/
theorem c3_witness :
    ("Monday" ∈ daysOfWeek) ∧
    jsTruthyOpt ((jGet planMissingMonday "dietPlan").bind
      (fun p => jGet p "Monday")) = false ∧
    isPlanSuccess
      (dietHandler true [] "ip" 100000 veganReq (.ok planText0) parseMissing).1
      = false :=
  ⟨by decide, by decide,
    @c3_missing_day_not_success true [] "ip" 100000 veganReq (.ok planText0)
      parseMissing planText0 planMissingMonday "Monday" rfl rfl (by decide)
      (Or.inl (by decide))⟩

/-- Claim C4: after a successful plan dispatch at time t1 the cooldown
timestamp for the caller key is written (and only success writes it); a
second request from the same key strictly less than 60000 ms later is
rejected RateLimited with no model invocation, while a second request
60000 ms or more later passes the cooldown and succeeds whenever its
input and model response are good. -/
theorem c4_cooldown {m : CooldownMap} {key : String} {t₁ t₂ : Nat}
    {req₁ : DietReq} {mo₁ : Except Unit (List Char)}
    {pa₁ : List Char → Option Json} {d w : Option Json}
    (h₁ : (dietHandler true m key t₁ req₁ mo₁ pa₁).1 = .success d w) :
    (dietHandler true m key t₁ req₁ mo₁ pa₁).2.1 = cdSet m key t₁ ∧
    (∀ req₂ mo₂ pa₂, t₂ - t₁ < 60000 →
      dietHandler true (cdSet m key t₁) key t₂ req₂ mo₂ pa₂
        = (.rateLimited, cdSet m key t₁, 0)) ∧
    (∀ req₂ text₂ data₂ pa₂, 60000 ≤ t₂ - t₁ →
      missingFields req₂ = false →
      (trimChars text₂).isEmpty = false →
      (extractJson text₂).bind pa₂ = some data₂ →
      validateDays data₂ = true →
      dietHandler true (cdSet m key t₁) key t₂ req₂ (.ok text₂) pa₂
        = (.success (jGet data₂ "dietPlan") (jGet data₂ "workoutPlan"),
            cdSet (cdSet m key t₁) key t₂, 1)) ∧
    (∀ (cfg : Bool) (m' : CooldownMap) (k : String) (t : Nat) (r : DietReq)
        (mo : Except Unit (List Char)) (pa : List Char → Option Json),
      isPlanSuccess (dietHandler cfg m' k t r mo pa).1 = false →
      (dietHandler cfg m' k t r mo pa).2.1 = m') := by
  have hg : cdGet (cdSet m key t₁) key = t₁ := by
    simp [cdGet, cdSet, List.lookup]
  refine ⟨?_, ?_, ?_, ?_⟩
  · obtain ⟨_, _, _, _, _, _, _, hfull⟩ := dietHandler_success_inv h₁
    rw [hfull]
  · intro req₂ mo₂ pa₂ hlt
    simp [dietHandler, hg, hlt]
  · intro req₂ text₂ data₂ pa₂ h60 hmiss2 htrim2 hbind2 hval2
    have hnlt : ¬ (t₂ - t₁ < 60000) := Nat.not_lt.mpr h60
    simp [dietHandler, dietAfterModel, dietAfterParse, hg, hnlt, hmiss2,
      htrim2, hbind2, hval2]
  · intro cfg m' k t r mo pa hfail
    rcases dietHandler_map_spec cfg m' k t r mo pa with ⟨hmap, _⟩ | ⟨d', w', heq⟩
    · exact hmap
    · rw [heq] at hfail
      simp [isPlanSuccess] at hfail

/-- Claim C4, witnessed on a deterministic clock: a successful dispatch
at t=100000, a rejection at t=130000, and a second success at
t=160000. -/
theorem c4_witness :
    dietHandler true (cdSet [] "ip" 100000) "ip" 130000 veganReq
        (.ok planText0) planParse0
      = (.rateLimited, cdSet [] "ip" 100000, 0) ∧
    dietHandler true (cdSet [] "ip" 100000) "ip" 160000 veganReq
        (.ok planText0) planParse0
      = (.success (jGet planData0 "dietPlan") (jGet planData0 "workoutPlan"),
          cdSet (cdSet [] "ip" 100000) "ip" 160000, 1) :=
  ⟨(@c4_cooldown [] "ip" 100000 130000 veganReq (.ok planText0) planParse0
      (some dp0) (some wp0) rfl).2.1 veganReq (.ok planText0) planParse0
      (by decide),
   (@c4_cooldown [] "ip" 100000 160000 veganReq (.ok planText0) planParse0
      (some dp0) (some wp0) rfl).2.2.1 veganReq planText0 planData0 planParse0
      (by decide) (by decide) (by decide) rfl (by decide)⟩

/-- Claim C5 is false on the code: the part_001 `/ai-evaluate-pdf`
revision invokes the model and answers success:true even when the
cleaned extracted text is only 60 characters long, far below the
150-character threshold. -/
theorem c5_counterexample :
    (cleanText (List.replicate 60 'a')).length = 60 ∧ (60 : Nat) < 150 ∧
    evalP1 true (some (List.replicate 60 'a'))
        (fun _ => .ok (String.toList "resp"))
      = (.success (.str "resp"), ⟨true, 1⟩) :=
  ⟨by decide, by decide, rfl⟩

/-- Claim C5 amended: in the canonical server.js `/ai-evaluate-pdf`
handler, extracted text shorter than 150 characters is answered with
the unreadable failure and the model is never invoked; the part_001
revision instead always calls the model. -/
theorem c5_amended {text : List Char} (metaRaw : Option (List Char))
    (model : List Char → Except Unit (List Char))
    (parse : List Char → Option Json)
    (hlen : text.length < 150) :
    evalHandler true (some text) metaRaw model parse
      = (.unreadable, ⟨true, 0⟩) := by
  simp [evalHandler, hlen]

/-- Claim C5 amended, witnessed on a 10-character report. -/
theorem c5_witness :
    evalHandler true (some (List.replicate 10 'a')) none
        (fun _ => .ok []) (fun _ => none)
      = (.unreadable, ⟨true, 0⟩) :=
  @c5_amended (List.replicate 10 'a') none (fun _ => .ok []) (fun _ => none)
    (by decide)

/-- Claim C6 is false on the code: with no credential configured, the
part_001 `/ai-evaluate-pdf` revision still performs PDF extraction and
prompt construction (the stats record `extracted := true`) and then
fails with a generic 500 — not an immediate ServiceUnavailable (its
outcome type has no such response at all). -/
theorem c6_counterexample :
    evalP1 false (some (List.replicate 60 'a')) (fun _ => .ok [])
      = (.error500, ⟨true, 0⟩) := rfl

/-- Claim C6 amended: the canonical server.js handlers do return the
disabled/unavailable response immediately when no credential is
configured — before any extraction, prompt construction or model call
(stats show `extracted := false` and zero model calls, and the cooldown
map is untouched); the part_001 evaluate revision does not. -/
theorem c6_amended (file metaRaw : Option (List Char))
    (model : List Char → Except Unit (List Char))
    (parse : List Char → Option Json)
    (m : CooldownMap) (key : String) (now : Nat) (req : DietReq)
    (mo : Except Unit (List Char)) (pa : List Char → Option Json) :
    evalHandler false file metaRaw model parse = (.aiDisabled, ⟨false, 0⟩) ∧
    dietHandler false m key now req mo pa = (.serviceUnavailable, m, 0) :=
  ⟨rfl, rfl⟩

/-- Claim C7 is false on the code: the model
invocations (server.js:211-216 and 406-411) await the backend with no
racing timer, so a backend that takes 30 seconds still has its text
returned — no Timeout classification ever happens there. -/
theorem c7_counterexample :
    plainInvoke 30000 (String.toList "ok") = .text (String.toList "ok") ∧
    (25000 : Nat) < 30000 ∧
    plainInvoke 30000 (String.toList "ok") ≠ .timeoutErr :=
  ⟨rfl, by decide, fun h => InvokeResult.noConfusion h⟩

/-- Claim C7 amended: only the second-revision `/ai-evaluate-pdf`
invocation races the backend against a 25-second timer, yielding the
Timeout failure whenever the backend exceeds it and the backend text
when it beats it; the invocations of the canonical revision return the
backend text regardless of delay. -/
theorem c7_amended (d : Nat) (s : List Char) :
    (25000 < d → racedInvoke d s = .timeoutErr) ∧
    (d < 25000 → racedInvoke d s = .text s) ∧
    plainInvoke d s = .text s := by
  refine ⟨fun h => ?_, fun h => ?_, rfl⟩
  · have hn : ¬ d < 25000 := by omega
    simp [racedInvoke, hn]
  · simp [racedInvoke, h]

/-- Claim C7 amended, witnessed at a 30-second backend delay. -/
theorem c7_witness : racedInvoke 30000 (String.toList "ok") = .timeoutErr :=
  (c7_amended 30000 (String.toList "ok")).1 (by decide)

/-- Claim C8: for a JSON object text J (first character a left brace,
last character a right brace) wrapped in any brace-free prose prefix and
suffix, the extraction regex recovers exactly J — identically to running
it on J alone — so any parse of the extraction agrees. -/
theorem c8_roundtrip (P J S : List Char)
    (hP : ∀ c ∈ P, c ≠ lbrace ∧ c ≠ rbrace)
    (hS : ∀ c ∈ S, c ≠ lbrace ∧ c ≠ rbrace)
    (hhead : J.head? = some lbrace)
    (hlast : J.getLast? = some rbrace) :
    extractJson (P ++ J ++ S) = some J ∧ extractJson J = some J ∧
    ∀ parse : List Char → Option Json,
      (extractJson (P ++ J ++ S)).bind parse = (extractJson J).bind parse := by
  cases J with
  | nil => simp at hhead
  | cons a J' =>
    simp only [List.head?_cons, Option.some.injEq] at hhead
    subst hhead
    have hrev : ∃ K, (lbrace :: J').reverse = rbrace :: K := by
      have h1 : (lbrace :: J').reverse.head? = some rbrace := by
        rw [List.head?_reverse]
        exact hlast
      cases hr2 : (lbrace :: J').reverse with
      | nil => rw [hr2] at h1; simp at h1
      | cons b K =>
        rw [hr2] at h1
        simp only [List.head?_cons, Option.some.injEq] at h1
        exact ⟨K, by rw [h1]⟩
    obtain ⟨K, hK⟩ := hrev
    have hPall : ∀ c ∈ P, (fun c => c != lbrace) c = true := fun c hc => by
      simpa [bne_iff_ne] using (hP c hc).1
    have hSall : ∀ c ∈ S.reverse, (fun c => c != rbrace) c = true := fun c hc => by
      have := (hS c (List.mem_reverse.mp hc)).2
      simpa [bne_iff_ne] using this
    have ht : (P ++ (lbrace :: J') ++ S).dropWhile (fun c => c != lbrace)
        = lbrace :: (J' ++ S) := by
      rw [List.append_assoc, dropWhile_append_of_all hPall]
      simp only [List.cons_append]
      exact List.dropWhile_cons_of_neg (by simp)
    have htJ : (lbrace :: J').dropWhile (fun c => c != lbrace) = lbrace :: J' :=
      List.dropWhile_cons_of_neg (by simp)
    have hr : (lbrace :: (J' ++ S)).reverse.dropWhile (fun c => c != rbrace)
        = rbrace :: K := by
      have hsplit : (lbrace :: (J' ++ S)).reverse
          = S.reverse ++ (lbrace :: J').reverse := by
        rw [← List.cons_append, List.reverse_append]
      rw [hsplit, dropWhile_append_of_all hSall, hK]
      exact List.dropWhile_cons_of_neg (by simp)
    have hrJ : (lbrace :: J').reverse.dropWhile (fun c => c != rbrace)
        = rbrace :: K := by
      rw [hK]
      exact List.dropWhile_cons_of_neg (by simp)
    have e1 : extractJson (P ++ (lbrace :: J') ++ S)
        = some ((rbrace :: K).reverse) :=
      extractJson_eq_some ht hr rfl rfl
    have e2 : extractJson (lbrace :: J') = some ((rbrace :: K).reverse) :=
      extractJson_eq_some htJ hrJ rfl rfl
    have hKrev : (rbrace :: K).reverse = lbrace :: J' := by
      rw [← hK, List.reverse_reverse]
    rw [hKrev] at e1 e2
    exact ⟨e1, e2, fun parse => by rw [e1, e2]⟩

/-- Claim C8, witnessed on a fenced model answer. -/
theorem c8_witness :
    extractJson (String.toList "Sure, here is the JSON: "
        ++ String.toList "\x7b \"a\": 1 \x7d" ++ String.toList " Hope it helps.")
      = some (String.toList "\x7b \"a\": 1 \x7d") :=
  (c8_roundtrip (String.toList "Sure, here is the JSON: ")
    (String.toList "\x7b \"a\": 1 \x7d") (String.toList " Hope it helps.")
    (by decide) (by decide) (by decide) (by decide)).1

/-- Claim C9 is false on the code: the canonical prompt builder embeds
`parsed.text.slice(0, 3500)`, so a 5000-character report contributes
3500 characters to the prompt, not "exactly the first 4000". -/
theorem c9_counterexample :
    (evalReportSection (List.replicate 5000 'a')).length = 3500 ∧
    (3500 : Nat) ≠ 4000 := by
  constructor
  · show (List.take 3500 (List.replicate 5000 'a')).length = 3500
    rw [List.length_take, List.length_replicate]
    norm_num
  · decide

/-- Claim C9 amended: the canonical evaluate prompt embeds exactly the
first 3500 characters of the report text (the second revision exactly
the first 4000), so the embedded report section never exceeds 4000
characters in either revision. -/
theorem c9_amended (t : List Char) :
    (evalReportSection t).length = min 3500 t.length ∧
    (evalReportSectionV2 t).length = min 4000 t.length ∧
    (evalReportSection t).length ≤ 4000 := by
  refine ⟨by simp [evalReportSection], by simp [evalReportSectionV2], ?_⟩
  have h1 : (evalReportSection t).length = min 3500 t.length := by
    simp [evalReportSection]
  rw [h1]
  exact le_trans (Nat.min_le_left _ _) (by norm_num)

/-- Claim C10: a successful login responds with exactly the stored user
record found for the supplied mobile number — the record whose password
field holds the bcrypt hash — so the hash is exposed at the public login
interface. -/
theorem c10_login_exposes_hash (db : List UserRec)
    (c : String → String → Bool) (token mobile password : String)
    (u : UserRec) (t : String)
    (h : login db c token mobile password = .ok u t) :
    db.find? (fun r => r.mobile == mobile) = some u ∧ u ∈ db := by
  unfold login at h
  cases hf : db.find? (fun r => r.mobile == mobile) with
  | none => rw [hf] at h; simp at h
  | some v =>
    rw [hf] at h
    have h' : (if c password v.password then LoginResult.ok v token
        else .invalidCred) = .ok u t := h
    split at h'
    · injection h' with h1 h2
      subst h1
      exact ⟨rfl, List.mem_of_find?_eq_some hf⟩
    · simp at h'

/-- Claim C10, witnessed on a one-user store. -/
theorem c10_witness :
    [user0].find? (fun r => r.mobile == "9876543210") = some user0 ∧
    user0 ∈ [user0] :=
  c10_login_exposes_hash [user0] (fun _ _ => true) "tok" "9876543210" "pw"
    user0 "tok" rfl

end FitTrack
